import Mathlib

/-!
Verification development for the intern-alert scraping pipeline (alert.py).
Strings are modelled as Lean strings (lists of characters); Python integers
as Nat/Int; Python float seconds as integer seconds; fallible operations as
Option.  Each Python function of the core is embedded as a Lean definition
carrying the same name where possible.
-/

/-- Ascii lower-casing of a character, as Python str.lower does on ascii text. -/
def asciiLower (c : Char) : Char :=
  if 'A' ≤ c ∧ c ≤ 'Z' then Char.ofNat (c.toNat + 32) else c

/-- Ascii upper-casing of a character, as Python str.upper does on ascii text. -/
def asciiUpper (c : Char) : Char :=
  if 'a' ≤ c ∧ c ≤ 'z' then Char.ofNat (c.toNat - 32) else c

/-- Characters matched by Python regex and str.strip whitespace (ascii range). -/
def isPySpace (c : Char) : Bool :=
  c = ' ' ∨ c = '\t' ∨ c = '\n' ∨ c = '\x0d' ∨ c = '\x0b' ∨ c = '\x0c'

/-- Ascii decimal digit. -/
def asciiIsDigit (c : Char) : Bool := '0' ≤ c ∧ c ≤ '9'

/-- Word character for Python regex word boundaries. -/
def isWordChar (c : Char) : Bool :=
  asciiIsDigit c ∨ ('a' ≤ c ∧ c ≤ 'z') ∨ ('A' ≤ c ∧ c ≤ 'Z') ∨ c = '_'

/-- Python str.strip on a character list: drop whitespace from both ends. -/
def pyStripL (cs : List Char) : List Char :=
  ((cs.dropWhile isPySpace).reverse.dropWhile isPySpace).reverse

/-- Python str.strip lifted to strings. -/
def pyStrip (s : String) : String := ⟨pyStripL s.data⟩

/-- Literal prefix test on character lists. -/
def listIsPref : List Char → List Char → Bool
  | [], _ => true
  | _ :: _, [] => false
  | p :: ps, c :: cs => p = c && listIsPref ps cs

/-- Case-insensitive prefix test: the pattern is given lower-case. -/
def ciIsPref (pat s : List Char) : Bool :=
  listIsPref pat (s.map asciiLower)

/-- Python substring containment (the in operator on str). -/
def containsSub : List Char → List Char → Bool
  | [], pat => pat.isEmpty
  | c :: cs, pat => listIsPref pat (c :: cs) || containsSub cs pat

/-- Numeric value of a digit string, as Python int() on a decimal literal. -/
def natOfDigits (ds : List Char) : Nat :=
  ds.foldl (fun a c => a * 10 + (c.toNat - 48)) 0

/-!
TimeParser: embedding of parse_relative_time (alert.py lines 90-107).
The compiled pattern is (\d+)\s*(?:hours?|hrs?|h|minutes?|mins?|m)\s+ago with
re.IGNORECASE, searched (not anchored) in the stripped input.  The unit
alternatives are tried in the written order, as the regex engine does.
-/

/-- Unit alternatives of the relative-time pattern, in regex alternation order. -/
def unitCands : List (List Char) :=
  [("hours").data, ("hour").data, ("hrs").data, ("hr").data, ("h").data,
   ("minutes").data, ("minute").data, ("mins").data, ("min").data, ("m").data]

/-- Attempt to match the relative-time pattern at the start of the input.
Returns the captured integer and the total matched length. -/
def matchRelAt (cs : List Char) : Option (Nat × Nat) :=
  let ds := cs.takeWhile asciiIsDigit
  if ds.isEmpty then none
  else
    let n := natOfDigits ds
    let r1 := cs.drop ds.length
    let ws1 := r1.takeWhile isPySpace
    let r2 := r1.drop ws1.length
    unitCands.findSome? fun u =>
      if ciIsPref u r2 then
        let r3 := r2.drop u.length
        let ws2 := r3.takeWhile isPySpace
        if ws2.isEmpty then none
        else if ciIsPref (("ago").data) (r3.drop ws2.length) then
          some (n, ds.length + ws1.length + u.length + ws2.length + 3)
        else none
      else none

/-- Leftmost search of the relative-time pattern; returns the captured
integer and the matched substring. -/
def searchRel : List Char → Option (Nat × List Char)
  | [] => none
  | c :: cs =>
    match matchRelAt (c :: cs) with
    | some (n, len) => some (n, (c :: cs).take len)
    | none => searchRel cs

/-- Embedding of parse_relative_time: search the stripped text for the
relative-time pattern; a match whose text contains "min" counts minutes,
any other match counts hours.  Returns (minutes, matched text) on success. -/
def parse_relative_time (text : String) : Option (Nat × String) :=
  if text = "" then none
  else
    match searchRel (pyStripL text.data) with
    | none => none
    | some (n, raw0) =>
      let raw := pyStripL raw0
      let low := raw.map asciiLower
      let mins := if containsSub low (("min").data) then n else n * 60
      some (mins, ⟨raw⟩)

example : parse_relative_time ("posted 2 hours ago somewhere") =
    some (120, ("2 hours ago")) := by decide

example : parse_relative_time ("no time info") = none := by decide

example : parse_relative_time ("30m ago") = some (1800, ("30m ago")) := by decide

/-!
Canonical job record (the dictionaries built by the normalizers).  The
display-only field posted_est is omitted; posted is an absolute UTC
timestamp in seconds (Python datetime), posted_ms a millisecond timestamp.
-/

/-- Canonical JobRecord produced by every normalizer. -/
structure Job where
  id : String
  title : String
  company : String
  url : String
  posted : Option Int
  posted_str : String
  posted_ms : Option Int := none
  deriving DecidableEq, Repr

/-- Recency window in minutes (WINDOW_MINS in alert.py). -/
def WINDOW_MINS : Nat := 120

/-- Embedding of within_last_2hr: the relative-time parse succeeds and the
minute value is at most the window. -/
def within_last_2hr (date_str : String) : Bool :=
  match parse_relative_time date_str with
  | some (mins, _) => mins ≤ WINDOW_MINS
  | none => false

/-- Embedding of job_in_window: in-window by relative posted_str, or by the
absolute posted timestamp (within the window, or a date-only timestamp whose
date is today or yesterday relative to now).  Timestamps are UTC seconds. -/
def job_in_window (now : Int) (j : Job) : Bool :=
  if within_last_2hr j.posted_str then true
  else
    match j.posted with
    | none => false
    | some pt =>
      let delta : Int := now - pt
      if 0 ≤ delta ∧ delta ≤ (WINDOW_MINS : Int) * 60 then true
      else if 0 < delta ∧ Int.emod (Int.fdiv pt 3600) 24 = 0 ∧
          Int.emod (Int.fdiv pt 60) 60 = 0 ∧
          Int.fdiv (now - 86400) 86400 ≤ Int.fdiv pt 86400 then true
      else false

/-!
Guardrails (alert.py lines 146-180).  meets_min_pay matches the anchored
pattern \$?\s*(\d+)(?:\s*-\s*\$?\s*(\d+))?\s*/\s*(HR|YR) on the stripped,
upper-cased input; the pattern is deterministic, so it is embedded as a
direct parser.  Python float division by 2080 is modelled as the exact
rational mkRat n 2080 (the compared magnitudes make the two agree).
-/

/-- Parse the optional range part \s*-\s*\$?\s*(\d+); on failure consume
nothing, as the regex does for a failed optional group. -/
def parsePayRange (r : List Char) : Option Nat × List Char :=
  let w1 := r.dropWhile isPySpace
  match w1 with
  | '-' :: w2 =>
    let w3 := w2.dropWhile isPySpace
    let w4 := if w3.head? = some '$' then w3.tail else w3
    let w5 := w4.dropWhile isPySpace
    let ds := w5.takeWhile asciiIsDigit
    if ds.isEmpty then (none, r) else (some (natOfDigits ds), w5.drop ds.length)
  | _ => (none, r)

/-- Anchored match of the salary pattern on an already stripped and
upper-cased input: optional dollar sign, first figure, optional range,
slash, HR or YR unit.  Returns (first figure, optional second figure,
unit is yearly). -/
def parsePayFrom (cs : List Char) : Option (Nat × Option Nat × Bool) :=
  let cs1 := if cs.head? = some '$' then cs.tail else cs
  let cs2 := cs1.dropWhile isPySpace
  let ds := cs2.takeWhile asciiIsDigit
  if ds.isEmpty then none
  else
    let n1 := natOfDigits ds
    let r := cs2.drop ds.length
    let pr := parsePayRange r
    let r3 := pr.2.dropWhile isPySpace
    match r3 with
    | '/' :: r4 =>
      let r5 := r4.dropWhile isPySpace
      if listIsPref (("HR").data) r5 then some (n1, pr.1, false)
      else if listIsPref (("YR").data) r5 then some (n1, pr.1, true)
      else none
    | _ => none

/-- Embedding of meets_min_pay: strip and upper-case the input, reject the
literal not-available forms, match the salary pattern, convert a yearly
figure to hourly by dividing by 2080, and compare the first captured figure
with the minimum. -/
def meets_min_pay (salary_str : String) (min_hr : ℚ := 25) : Bool :=
  let s := (pyStripL salary_str.data).map asciiUpper
  if s = ("N/A").data ∨ s = ("NA").data ∨ s = [] then false
  else
    match parsePayFrom s with
    | none => false
    | some (n1, _, isYr) =>
      let low : ℚ := if isYr then mkRat n1 2080 else (n1 : ℚ)
      decide (min_hr ≤ low)

/-- Modelled from the spec: the claim reads meetsMinPay as taking the lower
bound of a range, that is the smaller of the two captured figures. -/
def meetsMinPaySpecLower (salary_str : String) (min_hr : ℚ) : Bool :=
  let s := (pyStripL salary_str.data).map asciiUpper
  match parsePayFrom s with
  | none => false
  | some (n1, n2, isYr) =>
    let base : Nat := match n2 with | none => n1 | some m => Nat.min n1 m
    let low : ℚ := if isYr then mkRat base 2080 else (base : ℚ)
    decide (min_hr ≤ low)

/-- Modelled from the spec, amended: the claim with the range figure taken
as the first (left) captured figure, as the code does. -/
def meetsMinPaySpecFirst (salary_str : String) (min_hr : ℚ) : Bool :=
  let s := (pyStripL salary_str.data).map asciiUpper
  match parsePayFrom s with
  | none => false
  | some (n1, _, isYr) =>
    let low : ℚ := if isYr then mkRat n1 2080 else (n1 : ℚ)
    decide (min_hr ≤ low)

example : meets_min_pay ("$25-$30/hr") 25 = true := by decide
example : meets_min_pay ("$20/hr") 25 = false := by decide
example : meets_min_pay ("$66362/yr") 25 = true := by decide
example : meets_min_pay ("N/A") 25 = false := by decide
example : meets_min_pay ("$30-$20/hr") 25 = true := by decide
example : meetsMinPaySpecLower ("$30-$20/hr") 25 = false := by decide

/-!
Location guardrail is_usa_location (alert.py lines 163-180): reject when a
disallowed token occurs in the lower-cased text; otherwise every remaining
branch (allowed token, comma-state pattern, state-abbreviation word match,
final fallthrough) answers true.
-/

/-- Disallowed country, region and city tokens, in source order. -/
def disallowedTokens : List String :=
  ["canada", "ontario", "quebec", "uk", "united kingdom", "london", "europe",
   "india", "australia", "toronto", "vancouver", "calgary", "brisbane"]

/-- Allowed United-States tokens, in source order. -/
def usTokens : List String :=
  ["united states", "usa", " u.s.", " us,", "remote", "multi locations"]

/-- Two-letter state abbreviations of the source pattern, lower-cased. -/
def stateCodes : List String :=
  ["al", "ak", "az", "ar", "ca", "co", "ct", "de", "fl", "ga", "hi", "id",
   "il", "in", "ia", "ks", "ky", "la", "me", "md", "ma", "mi", "mn", "ms",
   "mo", "mt", "ne", "nv", "nh", "nj", "nm", "ny", "nc", "nd", "oh", "ok",
   "or", "pa", "ri", "sc", "sd", "tn", "tx", "ut", "vt", "va", "wa", "wv",
   "wi", "wy", "dc"]

/-- Search for the pattern comma, optional spaces, two capital letters,
optional spaces, then a comma or the end of the text. -/
def commaStateAfter (cs : List Char) : Bool :=
  match cs.dropWhile isPySpace with
  | a :: b :: rest =>
    ('A' ≤ a ∧ a ≤ 'Z' : Bool) && ('A' ≤ b ∧ b ≤ 'Z' : Bool) &&
      (match rest.dropWhile isPySpace with
       | [] => true
       | c :: _ => c = ',')
  | _ => false

/-- Scan the text for the comma-state pattern at any position. -/
def commaStateSearch : List Char → Bool
  | [] => false
  | c :: cs => (c = ',' && commaStateAfter cs) || commaStateSearch cs

/-- Case-insensitive word-boundary search for a two-letter state code. -/
def stateSearchAux (prev : Option Char) : List Char → Bool
  | [] => false
  | c :: cs =>
    ((match prev with | none => true | some p => !isWordChar p) &&
      stateCodes.any (fun code =>
        ciIsPref code.data (c :: cs) &&
          (match (c :: cs).drop 2 with
           | [] => true
           | d :: _ => !isWordChar d)))
    || stateSearchAux (some c) cs

/-- Word-boundary state-abbreviation search over the whole text. -/
def stateSearch (cs : List Char) : Bool := stateSearchAux none cs

/-- Embedding of is_usa_location: false when a disallowed token occurs in
the lower-cased stripped text; true on an allowed token, on the comma-state
pattern, on a state-abbreviation word, and on the final fallthrough. -/
def is_usa_location (location_str : String) : Bool :=
  if location_str = "" then true
  else
    let loc := pyStripL location_str.data
    if loc = [] then true
    else
      let low := loc.map asciiLower
      if disallowedTokens.any (fun t => containsSub low t.data) then false
      else if usTokens.any (fun t => containsSub low t.data) then true
      else if commaStateSearch loc then true
      else if stateSearch loc then true
      else true

/-- Modelled from the spec: the claim describes is_usa_location as false
exactly when a disallowed token is present, true otherwise (fail open). -/
def isUsaLocationSpec (location_str : String) : Bool :=
  !(disallowedTokens.any (fun t =>
    containsSub ((pyStripL location_str.data).map asciiLower) t.data))

example : is_usa_location ("Toronto, Ontario") = false := by decide
example : is_usa_location ("Remote") = true := by decide
example : is_usa_location ("") = true := by decide
example : is_usa_location ("Milwaukee, WI") = false := by decide

/-!
Static-markup normalizer parse_intern_list (alert.py lines 317-337).  The
regex scan over the page markup yields (path, title, date string, company)
capture tuples in document order; the embedding starts from that tuple list.
The date is parsed with strptime format "%B %d, %Y" (case-insensitive full
month name, day 1-31 with optional leading zero, comma, four-digit year,
whole string consumed, calendar-valid day) and turned into a UTC midnight
timestamp in seconds.
-/

/-- Days from the civil epoch 1970-01-01 for a calendar date. -/
def daysFromCivil (y m d : Int) : Int :=
  let y2 := if m ≤ 2 then y - 1 else y
  let era := (if 0 ≤ y2 then y2 else y2 - 399) / 400
  let yoe := y2 - era * 400
  let mp := Int.emod (m + 9) 12
  let doy := (153 * mp + 2) / 5 + d - 1
  let doe := yoe * 365 + yoe / 4 - yoe / 100 + doy
  era * 146097 + doe - 719468

/-- Month names recognised by strptime %B with their numbers. -/
def monthNames : List (String × Nat) :=
  [("january", 1), ("february", 2), ("march", 3), ("april", 4), ("may", 5),
   ("june", 6), ("july", 7), ("august", 8), ("september", 9),
   ("october", 10), ("november", 11), ("december", 12)]

/-- Length of a month in a given year (proleptic Gregorian). -/
def daysInMonth (y : Int) (m : Nat) : Nat :=
  if m = 2 then
    if Int.emod y 4 = 0 ∧ (Int.emod y 100 ≠ 0 ∨ Int.emod y 400 = 0) then 29
    else 28
  else if m = 4 ∨ m = 6 ∨ m = 9 ∨ m = 11 then 30
  else 31

/-- Parse the day field of strptime %d: one or two digits with value 1-31,
two digits taken only when they form 01-31, as the %d pattern does. -/
def parseDayField (cs : List Char) : Option (Nat × List Char) :=
  match cs with
  | c1 :: c2 :: rest =>
    if asciiIsDigit c1 ∧ asciiIsDigit c2 then
      let v := natOfDigits [c1, c2]
      if 1 ≤ v ∧ v ≤ 31 then some (v, rest)
      else if 1 ≤ natOfDigits [c1] then some (natOfDigits [c1], c2 :: rest)
      else none
    else if asciiIsDigit c1 ∧ 1 ≤ natOfDigits [c1] then
      some (natOfDigits [c1], c2 :: rest)
    else none
  | [c1] =>
    if asciiIsDigit c1 ∧ 1 ≤ natOfDigits [c1] then some (natOfDigits [c1], [])
    else none
  | [] => none

/-- Embedding of strptime(date_str.strip(), "%B %d, %Y") followed by the
UTC midnight timestamp: returns seconds since the epoch, or none on any
parse or calendar failure (the caught ValueError). -/
def parseMonthDate (date_str : String) : Option Int :=
  let cs := pyStripL date_str.data
  match monthNames.findSome? (fun p =>
      if ciIsPref p.1.data cs then some (p.2, cs.drop p.1.data.length)
      else none) with
  | none => none
  | some (m, r1) =>
    let ws1 := r1.takeWhile isPySpace
    if ws1.isEmpty then none
    else
      match parseDayField (r1.drop ws1.length) with
      | none => none
      | some (d, r2) =>
        match r2 with
        | ',' :: r3 =>
          let ws2 := r3.takeWhile isPySpace
          if ws2.isEmpty then none
          else
            let r4 := r3.drop ws2.length
            let ys := r4.take 4
            if ys.length = 4 ∧ ys.all asciiIsDigit ∧ r4.drop 4 = [] then
              let y := natOfDigits ys
              if 1 ≤ y ∧ 1 ≤ d ∧ d ≤ daysInMonth y m then
                some (86400 * daysFromCivil y m d)
              else none
            else none
        | _ => none

/-- Last component of Python path.split on the slash character. -/
def splitOnChar (sep : Char) : List Char → List Char × List (List Char)
  | [] => ([], [])
  | c :: cs =>
    let r := splitOnChar sep cs
    if c = sep then ([], r.1 :: r.2) else (c :: r.1, r.2)

/-- All components of splitting on a character. -/
def splitParts (sep : Char) (cs : List Char) : List (List Char) :=
  (splitOnChar sep cs).1 :: (splitOnChar sep cs).2

/-- Python path.split on slash, last element. -/
def lastSlashSeg (path : String) : String :=
  ⟨(splitParts '/' path.data).getLast (by
    simp [splitParts])⟩

/-- Recursion of parse_intern_list over the capture tuples, carrying the
set of path-derived ids already produced on this page. -/
def parse_intern_list_go (seenIds : List String) :
    List (String × String × String × String) → List Job
  | [] => []
  | (path, title, date_str, company) :: rest =>
    let job_id := lastSlashSeg path
    if job_id ∈ seenIds then parse_intern_list_go seenIds rest
    else
      { id := ("il_") ++ job_id,
        title := pyStrip title,
        company := pyStrip company,
        url := ("https://www.intern-list.com") ++ path,
        posted := parseMonthDate date_str,
        posted_str := pyStrip date_str } ::
        parse_intern_list_go (job_id :: seenIds) rest

/-- Embedding of parse_intern_list: one record per unique path id, all
captured rows kept regardless of the window (the caller filters).  The
unused second argument mirrors the today_utc parameter of the source. -/
def parse_intern_list (rows : List (String × String × String × String))
    (_today_utc : Int := 0) : List Job :=
  parse_intern_list_go [] rows

example : parseMonthDate ("February 13, 2026") = some (86400 * 20497) := by decide
example : parseMonthDate ("February 30, 2026") = none := by decide
example : parseMonthDate ("January 1, 1970") = some 0 := by decide
example : parseMonthDate ("January 2, 1970") = some 86400 := by decide

/-!
Embedded-JSON normalizer parse_jobright_next_data (alert.py lines 339-392).
The markup and JSON decoding stage (locating the NEXT_DATA script tag and
descending props.pageProps.initialJobs) yields a list of raw entries; the
embedding starts from that decoded list.  A raw entry models one JSON job
object; a missing or non-numeric postedDate is a none field.
-/

/-- Raw Jobright JSON entry after decoding. -/
structure JrRaw where
  id : Option String := none
  postedDate : Option Int := none
  salary : Option String := none
  location : Option String := none
  title : Option String := none
  company : Option String := none
  applyUrl : Option String := none
  deriving DecidableEq, Repr

/-- Millisecond window used by the JSON normalizer. -/
def window_ms : Int := (WINDOW_MINS : Int) * 60 * 1000

/-- Python truthiness coalescing of an optional string to a plain string,
the empty string when absent. -/
def orEmpty (s : Option String) : String := s.getD ("")

/-- Per-entry step of parse_jobright_next_data: require an id and a posted
time, keep only entries at most the window old and not future-dated, apply
the pay and location guardrails, synthesise the relative display string,
truncate title and company, default and canonicalise the url. -/
def jrStep (now_ms : Int) (j : JrRaw) : Option Job :=
  let jid := orEmpty j.id
  if jid = "" then none
  else
    match j.postedDate with
    | none => none
    | some posted_ms =>
      let diff_ms := now_ms - posted_ms
      if diff_ms < 0 ∨ window_ms < diff_ms then none
      else
        let mins_ago := diff_ms / 60000
        let posted_str :=
          if mins_ago < 60 then
            if mins_ago = 1 then ("1 min ago") else s!"{mins_ago} mins ago"
          else
            let hrs := mins_ago / 60
            if hrs = 1 then ("1 hour ago") else s!"{hrs} hours ago"
        if !(meets_min_pay (orEmpty j.salary)) then none
        else if !(is_usa_location (orEmpty j.location)) then none
        else
          let title : String := ⟨(orEmpty j.title).data.take 200⟩
          let company : String := ⟨(orEmpty j.company).data.take 100⟩
          let url0 := pyStrip (orEmpty j.applyUrl)
          let url1 :=
            if url0 = ("") ∨ !listIsPref (("http").data) url0.data then
              ("https://jobright.ai/jobs/info/") ++ jid
            else url0
          let url2 :=
            if url1.data.any (fun c => c = '?') then
              (⟨url1.data.takeWhile (fun c => c ≠ '?')⟩ : String)
            else url1
          some { id := ("jr_") ++ jid,
                 title := if title = ("") then ("Data Analysis Intern") else title,
                 company := company,
                 url := url2,
                 posted := none,
                 posted_str := posted_str,
                 posted_ms := some posted_ms }

/-- Embedding of the loop of parse_jobright_next_data over the decoded
entry list. -/
def parse_jobright_jobs (now_ms : Int) (job_list : List JrRaw) : List Job :=
  job_list.filterMap (jrStep now_ms)

/-!
Digest ordering (alert.py lines 609-616).  Python list.sort with the key
function sort_key is a stable ascending sort on the key tuples; it is
embedded as a stable insertion sort on the same keys.
-/

/-- Batch entry: a job paired with its source name. -/
abbrev Entry := Job × String

/-- Embedding of sort_key: records with an absolute timestamp get the key
pair (1, negated timestamp); the rest get (0, 0). -/
def sort_key (x : Entry) : Int × Int :=
  match x.1.posted with
  | some pt => (1, -pt)
  | none => (0, 0)

/-- Ascending lexicographic comparison of key pairs. -/
def keyLe (a b : Int × Int) : Bool :=
  a.1 < b.1 ∨ (a.1 = b.1 ∧ a.2 ≤ b.2)

/-- Stable insertion of an element into a list sorted by sort_key: the
element goes before the first entry it compares at most equal to. -/
def digestInsert (x : Entry) : List Entry → List Entry
  | [] => [x]
  | y :: ys =>
    if keyLe (sort_key x) (sort_key y) then x :: y :: ys
    else y :: digestInsert x ys

/-- Stable sort by sort_key, the embedding of to_send.sort(key=sort_key). -/
def digestSort : List Entry → List Entry
  | [] => []
  | x :: xs => digestInsert x (digestSort xs)

/-!
Store functions load_seen and save_seen (alert.py lines 38-46): the file
content is a character list; save joins the sorted ids with newlines, load
splits into lines, strips each and keeps the nonempty ones as a set.
-/

/-- Split a character list at every newline (the lines of the file). -/
def splitNl (cs : List Char) : List (List Char) := splitParts '\n' cs

/-- Join lines with single newline separators, as the string join does. -/
def joinNl : List (List Char) → List Char
  | [] => []
  | [l] => l
  | l :: ls => l ++ '\n' :: joinNl ls

/-- Embedding of save_seen: write the sorted ids joined by newlines. -/
def save_seen (seen : Finset String) : List Char :=
  joinNl ((seen.sort (· ≤ ·)).map String.data)

/-- Embedding of load_seen on an existing file: the set of stripped
nonempty lines. -/
def load_seen (content : List Char) : Finset String :=
  ((((splitNl content).map pyStripL).filter (fun l => l ≠ [])).map
    (fun l => (⟨l⟩ : String))).toFinset

/-!
Orchestrator main (alert.py lines 529-629), up to the digest rendering.
Collaborator results are inputs: a none fetch result models a raised and
caught fetch exception, so that source contributes nothing this run.  The
run state is the in-memory seen set together with the batch of novel
(job, source) pairs in arrival order.
-/

/-- Run state: seen ids so far and the novel batch in arrival order. -/
abbrev RunState := Finset String × List Entry

/-- One loop body of main for one job: test novelty, mark the id seen,
append novel jobs to the batch. -/
def addJob (src : String) (st : RunState) (j : Job) : RunState :=
  let isNew := j.id ∉ st.1
  (insert j.id st.1, if isNew then st.2 ++ [(j, src)] else st.2)

/-- One source loop of main over a job list. -/
def processList (src : String) (js : List Job) (st : RunState) : RunState :=
  js.foldl (addJob src) st

/-- Intern-list branch of main: window-filter the statically parsed jobs,
process them, and when none was in the window process the rows scraped by
the headless-browser fallback. -/
def internBranch (now : Int) (fetchRes : Option (List Job))
    (ilPw : List Job) (st : RunState) : RunState :=
  match fetchRes with
  | none => st
  | some parsed =>
    let inWin := parsed.filter (job_in_window now)
    let st1 := processList ("intern-list") inWin st
    if inWin.length = 0 then processList ("intern-list") ilPw st1 else st1

/-- Id-deduplication of the combined minisite results (the seen_jr set). -/
def dedupeById_go (seenIds : List String) : List Job → List Job
  | [] => []
  | j :: js =>
    if j.id ∈ seenIds then dedupeById_go seenIds js
    else j :: dedupeById_go (j.id :: seenIds) js

/-- Combined and deduplicated minisite job list. -/
def dedupeById (js : List Job) : List Job := dedupeById_go [] js

/-- Jobright source result: the three minisite fetches (all-or-nothing,
a failed fetch aborts the whole source), the static fallback fetch and the
headless-browser fallback, wired as in main. -/
def jobrightJobs (mini : Option (List (List Job)))
    (fb : Option (List Job)) (pw : List Job) : Option (List Job) :=
  match mini with
  | none => none
  | some lists =>
    let p := dedupeById lists.flatten
    if p ≠ [] then some p
    else
      match fb with
      | none => none
      | some q => if q ≠ [] then some q else some pw

/-- Jobright branch of main. -/
def jobrightBranch (jr : Option (List Job)) (st : RunState) : RunState :=
  match jr with
  | none => st
  | some js => processList ("jobright") js st

/-- Airtable branch of main: the API result when available, otherwise the
headless-browser scrape. -/
def airtableBranch (atApi : Option (List Job)) (atPw : List Job)
    (st : RunState) : RunState :=
  match atApi with
  | some js => processList ("airtable") js st
  | none => processList ("airtable") atPw st

/-- The three source branches of main in order, from the loaded seen set. -/
def runSources (seen0 : Finset String) (now : Int)
    (internFetch : Option (List Job)) (ilPw : List Job)
    (jrMini : Option (List (List Job))) (jrFb : Option (List Job))
    (jrPw : List Job) (atApi : Option (List Job)) (atPw : List Job) :
    RunState :=
  airtableBranch atApi atPw
    (jobrightBranch (jobrightJobs jrMini jrFb jrPw)
      (internBranch now internFetch ilPw (seen0, [])))

/-- Embedding of one main run: process all sources, sort the batch, and
return the seen set handed to save_seen (always persisted) with the sorted
novel batch to_send. -/
def runMain (seen0 : Finset String) (now : Int)
    (internFetch : Option (List Job)) (ilPw : List Job)
    (jrMini : Option (List (List Job))) (jrFb : Option (List Job))
    (jrPw : List Job) (atApi : Option (List Job)) (atPw : List Job) :
    RunState :=
  let st := runSources seen0 now internFetch ilPw jrMini jrFb jrPw atApi atPw
  (st.1, digestSort st.2)

/-!
Fetch retry wrapper fetch_with_retry (alert.py lines 52-59): attempts are
indexed from zero; the result of attempt a is given by the collaborator
function; the error of the last allowed attempt is re-raised.
-/

/-- Recursion of fetch_with_retry over the remaining retry budget. -/
def fetchRetryAux (attempts : Nat → Except String String) :
    Nat → Nat → Except String String
  | a, 0 => attempts a
  | a, r + 1 =>
    match attempts a with
    | .ok v => .ok v
    | .error _ => fetchRetryAux attempts (a + 1) r

/-- Embedding of fetch_with_retry with its default budget retries = 2. -/
def fetch_with_retry (attempts : Nat → Except String String)
    (retries : Nat := 2) : Except String String :=
  fetchRetryAux attempts 0 retries

/-- Modelled from the spec: the claim describes the wrapper as retrying a
failed fetch at most once, so at most two attempts happen. -/
def fetchRetryOnceSpec (attempts : Nat → Except String String) :
    Except String String :=
  match attempts 0 with
  | .ok v => .ok v
  | .error _ => attempts 1

/-- Modelled from the spec, amended: with the default budget the wrapper
makes up to three attempts and returns the first success, or the error of
the third attempt. -/
def fetchRetryTwiceSpec (attempts : Nat → Except String String) :
    Except String String :=
  match attempts 0 with
  | .ok v => .ok v
  | .error _ =>
    match attempts 1 with
    | .ok v => .ok v
    | .error _ => attempts 2

/-!
Claim theorems.
-/

/-- Claim C3: evaluation of parse_relative_time.  The two spec examples
hold, but the failing input "30m ago" is returned as 1800 minutes: the
minute test looks for the substring "min" in the matched text, which a bare
m unit does not contain, so the value is multiplied by 60 against the
stated (and commented) minute meaning of the m unit. -/
theorem c3_parse_relative_eval :
    parse_relative_time ("posted 2 hours ago somewhere") =
      some (120, ("2 hours ago")) ∧
    parse_relative_time ("no time info") = none ∧
    parse_relative_time ("30m ago") = some (1800, ("30m ago")) := by
  decide

/-- Claim C6, counterexample: on the inverted range the code accepts the
first figure 30 although the lower bound of the range is 20, below the
minimum, so meets_min_pay does not take the lower bound of a range as the
claim states. -/
theorem c6_counterexample :
    meets_min_pay ("$30-$20/hr") 25 = true ∧
    meetsMinPaySpecLower ("$30-$20/hr") 25 = false := by
  decide

/-- Claim C6, amended: meets_min_pay agrees everywhere with the claimed
description once the range bound is read as the first (left) figure rather
than the smaller one; the four spec examples hold. -/
theorem c6_amended_pay :
    (∀ (s : String) (m : ℚ), meets_min_pay s m = meetsMinPaySpecFirst s m) ∧
    meets_min_pay ("$25-$30/hr") 25 = true ∧
    meets_min_pay ("$20/hr") 25 = false ∧
    meets_min_pay ("$66362/yr") 25 = true ∧
    meets_min_pay ("N/A") 25 = false := by
  refine ⟨?_, by decide, by decide, by decide, by decide⟩
  intro s m
  simp only [meets_min_pay, meetsMinPaySpecFirst]
  by_cases h :
      (pyStripL s.data).map asciiUpper = ("N/A").data ∨
      (pyStripL s.data).map asciiUpper = ("NA").data ∨
      (pyStripL s.data).map asciiUpper = [] 
  · rw [if_pos h]
    have e1 : parsePayFrom (("N/A").data) = none := by decide
    have e2 : parsePayFrom (("NA").data) = none := by decide
    have e3 : parsePayFrom ([] : List Char) = none := by decide
    rcases h with h | h | h <;> rw [h] <;> simp [e1, e2, e3]
  · rw [if_neg h]

/-- Claim C7: is_usa_location answers false exactly when a disallowed
token occurs in the text and true otherwise, so it fails open; the three
spec examples hold. -/
theorem c7_usa_location :
    (∀ s : String, is_usa_location s = isUsaLocationSpec s) ∧
    is_usa_location ("Toronto, Ontario") = false ∧
    is_usa_location ("Remote") = true ∧
    is_usa_location ("") = true := by
  refine ⟨?_, by decide, by decide, by decide⟩
  intro s
  simp only [is_usa_location, isUsaLocationSpec]
  by_cases h0 : s = ""
  · subst h0; decide
  · rw [if_neg h0]
    by_cases h1 : pyStripL s.data = []
    · rw [if_pos h1, h1]; decide
    · rw [if_neg h1]
      by_cases h2 : disallowedTokens.any
          (fun t => containsSub ((pyStripL s.data).map asciiLower) t.data) = true
      · rw [if_pos h2, h2]; rfl
      · rw [if_neg h2]
        have h2' : disallowedTokens.any
            (fun t => containsSub ((pyStripL s.data).map asciiLower) t.data) = false :=
          Bool.eq_false_iff.mpr h2
        rw [h2']
        by_cases c1 : usTokens.any
            (fun t => containsSub ((pyStripL s.data).map asciiLower) t.data) = true <;>
          by_cases c2 : commaStateSearch (pyStripL s.data) = true <;>
          by_cases c3 : stateSearch (pyStripL s.data) = true <;>
          simp [c1, c2, c3]

/-- The key order is total. -/
theorem keyLeTotal (a b : Int × Int) : keyLe a b = true ∨ keyLe b a = true := by
  simp only [keyLe, decide_eq_true_eq]
  omega

/-- The key order is transitive. -/
theorem keyLeTrans {a b c : Int × Int} (h1 : keyLe a b = true)
    (h2 : keyLe b c = true) : keyLe a c = true := by
  simp only [keyLe, decide_eq_true_eq] at h1 h2 ⊢
  omega

/-- Inserting permutes: the result is the element on top of the list. -/
theorem digestInsert_perm (x : Entry) (l : List Entry) :
    (digestInsert x l).Perm (x :: l) := by
  induction l with
  | nil => simp [digestInsert]
  | cons y ys ih =>
    rw [digestInsert]
    by_cases hxy : keyLe (sort_key x) (sort_key y) = true
    · rw [if_pos hxy]
    · rw [if_neg hxy]
      exact (ih.cons y).trans (List.Perm.swap x y ys)

/-- The sort permutes its input. -/
theorem digestSort_perm (l : List Entry) : (digestSort l).Perm l := by
  induction l with
  | nil => simp [digestSort]
  | cons x xs ih =>
    exact (digestInsert_perm x (digestSort xs)).trans (ih.cons x)

/-- Sortedness is preserved by insertion. -/
theorem digestInsert_pairwise (x : Entry) (l : List Entry)
    (h : l.Pairwise (fun a b => keyLe (sort_key a) (sort_key b) = true)) :
    (digestInsert x l).Pairwise
      (fun a b => keyLe (sort_key a) (sort_key b) = true) := by
  induction l with
  | nil => simp [digestInsert]
  | cons y ys ih =>
    rcases List.pairwise_cons.mp h with ⟨hy, hys⟩
    rw [digestInsert]
    by_cases hxy : keyLe (sort_key x) (sort_key y) = true
    · rw [if_pos hxy]
      refine List.pairwise_cons.mpr ⟨?_, h⟩
      intro z hz
      rcases List.mem_cons.mp hz with rfl | hz
      · exact hxy
      · exact keyLeTrans hxy (hy z hz)
    · rw [if_neg hxy]
      have hyx : keyLe (sort_key y) (sort_key x) = true :=
        (keyLeTotal (sort_key x) (sort_key y)).resolve_left hxy
      refine List.pairwise_cons.mpr ⟨?_, ih hys⟩
      intro z hz
      rcases List.mem_cons.mp ((digestInsert_perm x ys).mem_iff.mp hz) with rfl | hz2
      · exact hyx
      · exact hy z hz2
    
/-- The sort output is sorted in the key order. -/
theorem digestSort_pairwise (l : List Entry) :
    (digestSort l).Pairwise
      (fun a b => keyLe (sort_key a) (sort_key b) = true) := by
  induction l with
  | nil => simp [digestSort]
  | cons x xs ih => exact digestInsert_pairwise x (digestSort xs) ih

/-- An element without timestamp inserts at the front. -/
theorem digestInsert_front (x : Entry) (l : List Entry)
    (hx : x.1.posted = none) : digestInsert x l = x :: l := by
  cases l with
  | nil => rfl
  | cons y ys =>
    rw [digestInsert, if_pos]
    simp only [sort_key, hx, keyLe]
    cases hy : y.1.posted <;> simp

/-- An element with timestamp slides over a timestamp-free block. -/
theorem digestInsert_skip (x : Entry) (pre post : List Entry)
    (hx : x.1.posted.isSome) (hpre : ∀ y ∈ pre, y.1.posted = none) :
    digestInsert x (pre ++ post) = pre ++ digestInsert x post := by
  induction pre with
  | nil => rfl
  | cons y ys ih =>
    have hy := hpre y (List.mem_cons_self y ys)
    rcases Option.isSome_iff_exists.mp hx with ⟨t, ht⟩
    have hrec := ih (fun z hz => hpre z (List.mem_cons_of_mem y hz))
    have hneg : ¬ keyLe (sort_key x) (sort_key y) = true := by
      simp [sort_key, hy, ht, keyLe]
    rw [List.cons_append, digestInsert, if_neg hneg, hrec, List.cons_append]

/-- The sorted batch decomposes as the timestamp-free block in arrival
order followed by the sorted timestamped block. -/
theorem digestSort_split (l : List Entry) :
    digestSort l = l.filter (fun e => e.1.posted.isNone) ++
      digestSort (l.filter (fun e => e.1.posted.isSome)) := by
  induction l with
  | nil => rfl
  | cons x xs ih =>
    rw [digestSort, ih]
    by_cases hx : x.1.posted.isSome
    · have hnone : (x.1.posted.isNone : Bool) = false := by
        rcases Option.isSome_iff_exists.mp hx with ⟨t, ht⟩
        simp [ht]
      rw [digestInsert_skip x _ _ hx]
      · rw [List.filter_cons_of_neg (by simp [hnone]),
          List.filter_cons_of_pos (by simp [hx]), digestSort]
      · intro y hy
        have := List.of_mem_filter hy
        exact Option.isNone_iff_eq_none.mp (by simpa using this)
    · have hnone : x.1.posted = none := by
        cases h : x.1.posted with
        | none => rfl
        | some t => exact absurd (by simp [h]) hx
      rw [digestInsert_front x _ hnone,
        List.filter_cons_of_pos (by simp [hnone]),
        List.filter_cons_of_neg (by simp [hnone]), List.cons_append]

/-- Example record without absolute timestamp for the merge-order claim. -/
def exJobNoTs : Job :=
  { id := ("jr_1"), title := ("A"), company := (""), url := (""),
    posted := none, posted_str := ("30 mins ago") }

/-- Example record with the older absolute timestamp. -/
def exJobT1 : Job :=
  { id := ("il_1"), title := ("B"), company := (""), url := (""),
    posted := some 100, posted_str := ("January 1, 1970") }

/-- Example record with the newer absolute timestamp. -/
def exJobT2 : Job :=
  { id := ("il_2"), title := ("C"), company := (""), url := (""),
    posted := some 200, posted_str := ("January 1, 1970") }

/-- Claim C5: the merged digest order puts the records without absolute
timestamp first as one block in arrival order, followed by a permutation of
the timestamped records ordered by timestamp descending; the spec example
sorts as stated. -/
theorem c5_merge_ordering :
    (∀ l : List Entry,
      digestSort l = l.filter (fun e => e.1.posted.isNone) ++
          digestSort (l.filter (fun e => e.1.posted.isSome)) ∧
        (digestSort (l.filter (fun e => e.1.posted.isSome))).Perm
          (l.filter (fun e => e.1.posted.isSome)) ∧
        (digestSort (l.filter (fun e => e.1.posted.isSome))).Pairwise
          (fun a b => ∀ ta tb, a.1.posted = some ta →
            b.1.posted = some tb → tb ≤ ta)) ∧
    digestSort [(exJobNoTs, ("jobright")), (exJobT1, ("intern-list")),
        (exJobT2, ("intern-list"))] =
      [(exJobNoTs, ("jobright")), (exJobT2, ("intern-list")),
        (exJobT1, ("intern-list"))] := by
  refine ⟨?_, by decide⟩
  intro l
  refine ⟨digestSort_split l, digestSort_perm _, ?_⟩
  refine (digestSort_pairwise _).imp ?_
  intro a b hab ta tb hta htb
  simp only [keyLe, sort_key, hta, htb, decide_eq_true_eq] at hab
  omega

/-- Splitting skips over separator-free material. -/
theorem splitOnChar_append {sep : Char} (a cs : List Char)
    (h : ∀ c ∈ a, c ≠ sep) :
    splitOnChar sep (a ++ cs) =
      (a ++ (splitOnChar sep cs).1, (splitOnChar sep cs).2) := by
  induction a with
  | nil => rfl
  | cons c a ih =>
    have hc := h c (List.mem_cons_self c a)
    rw [List.cons_append, splitOnChar, ih (fun d hd => h d (List.mem_cons_of_mem c hd)),
      if_neg hc, List.cons_append]

/-- Splitting inverts joining on newline-free nonempty line lists. -/
theorem splitParts_joinNl (ls : List (List Char)) (hne : ls ≠ [])
    (h : ∀ l ∈ ls, ∀ c ∈ l, c ≠ '\n') :
    splitParts '\n' (joinNl ls) = ls := by
  induction ls with
  | nil => exact absurd rfl hne
  | cons l ls ih =>
    cases ls with
    | nil =>
      have : joinNl [l] = l := rfl
      rw [this, splitParts]
      have h2 := splitOnChar_append l [] (h l (List.mem_cons_self l []))
      rw [List.append_nil] at h2
      rw [h2]
      simp [splitOnChar]
    | cons l2 ls2 =>
      have hjoin : joinNl (l :: l2 :: ls2) = l ++ '\n' :: joinNl (l2 :: ls2) := rfl
      rw [hjoin, splitParts,
        splitOnChar_append l _ (h l (List.mem_cons_self l _))]
      have hstep : splitOnChar '\n' ('\n' :: joinNl (l2 :: ls2)) =
          ([], (splitOnChar '\n' (joinNl (l2 :: ls2))).1 ::
            (splitOnChar '\n' (joinNl (l2 :: ls2))).2) := by
        rw [splitOnChar, if_pos rfl]
      rw [hstep]
      have ih2 := ih (by simp) (fun m hm => h m (List.mem_cons_of_mem l hm))
      rw [splitParts] at ih2
      simpa using ih2

/-- Dropping on a predicate that never holds keeps the list. -/
theorem dropWhile_of_none {p : Char → Bool} (l : List Char)
    (h : ∀ c ∈ l, ¬ p c = true) : l.dropWhile p = l := by
  cases l with
  | nil => rfl
  | cons c cs =>
    rw [List.dropWhile_cons,
      if_neg (by simpa using h c (List.mem_cons_self c cs))]

/-- Stripping leaves whitespace-free text unchanged. -/
theorem pyStripL_noop (l : List Char) (h : ∀ c ∈ l, ¬ isPySpace c = true) :
    pyStripL l = l := by
  unfold pyStripL
  rw [dropWhile_of_none l h,
    dropWhile_of_none l.reverse (fun c hc => h c (List.mem_reverse.mp hc)),
    List.reverse_reverse]

/-- Claim C10: the seen-set store round-trips: saving a set of nonempty
whitespace-free ids and loading it back returns the same set. -/
theorem c10_seen_roundtrip (S : Finset String)
    (h : ∀ id ∈ S, id ≠ ("") ∧ ∀ c ∈ id.data, ¬ isPySpace c = true) :
    load_seen (save_seen S) = S := by
  classical
  unfold load_seen save_seen splitNl
  by_cases hS : S = ∅
  · subst hS
    rw [Finset.sort_empty]
    rfl
  · set L := (Finset.sort (· ≤ ·) S).map String.data with hL
    have hsortne : Finset.sort (· ≤ ·) S ≠ [] := by
      intro hnil
      have := Finset.length_sort (α := String) (· ≤ ·) (s := S)
      rw [hnil] at this
      simp only [List.length_nil] at this
      exact hS (Finset.card_eq_zero.mp this.symm)
    have hLne : L ≠ [] := by
      simpa [hL] using hsortne
    have hmem : ∀ l ∈ L, ∃ id ∈ S, l = id.data := by
      intro l hl
      rcases List.mem_map.mp hl with ⟨id, hid, rfl⟩
      exact ⟨id, (Finset.mem_sort (· ≤ ·)).mp hid, rfl⟩
    have hnl : ∀ l ∈ L, ∀ c ∈ l, c ≠ '\n' := by
      intro l hl c hc
      rcases hmem l hl with ⟨id, hid, rfl⟩
      intro hceq
      exact (h id hid).2 c hc (by rw [hceq]; decide)
    rw [splitParts_joinNl L hLne hnl]
    have hdataNe : ∀ l ∈ L, l ≠ [] := by
      intro l hl
      rcases hmem l hl with ⟨id, hid, rfl⟩
      intro hnil
      exact (h id hid).1 (String.ext hnil)
    have hmapstrip : L.map pyStripL = L := by
      have : L.map pyStripL = L.map id := by
        refine List.map_congr_left ?_
        intro a ha
        rcases hmem a ha with ⟨id, hid, rfl⟩
        exact pyStripL_noop id.data (h id hid).2
      rw [this, List.map_id]
    rw [hmapstrip]
    have hfilter : L.filter (fun l => l ≠ []) = L := by
      refine List.filter_eq_self.mpr ?_
      intro a ha
      exact decide_eq_true (hdataNe a ha)
    rw [hfilter, hL, List.map_map]
    have hmapmk : (Finset.sort (· ≤ ·) S).map
        ((fun l => (⟨l⟩ : String)) ∘ String.data) =
        Finset.sort (· ≤ ·) S := by
      have : (Finset.sort (· ≤ ·) S).map ((fun l => (⟨l⟩ : String)) ∘ String.data) =
          (Finset.sort (· ≤ ·) S).map id := by
        refine List.map_congr_left ?_
        intro a _
        rfl
      rw [this, List.map_id]
    rw [hmapmk, Finset.sort_toFinset]

/-- Witness for claim C10 at a concrete two-element id set. -/
theorem c10_witness :
    (∀ id ∈ ({("jr_a"), ("il_b")} : Finset String), id ≠ ("") ∧
      ∀ c ∈ id.data, ¬ isPySpace c = true) ∧
    load_seen (save_seen ({("jr_a"), ("il_b")} : Finset String)) =
      ({("jr_a"), ("il_b")} : Finset String) :=
  ⟨by decide, c10_seen_roundtrip _ (by decide)⟩

/-- Ids of a job list as a set. -/
def idsOf (js : List Job) : Finset String := (js.map (fun j => j.id)).toFinset

/-- Membership in idsOf. -/
theorem mem_idsOf {j : Job} {js : List Job} (hj : j ∈ js) : j.id ∈ idsOf js := by
  simp only [idsOf, List.mem_toFinset, List.mem_map]
  exact ⟨j, hj, rfl⟩

/-- Processing a source list adds exactly its ids to the seen set. -/
theorem processList_seen (src : String) (js : List Job) (st : RunState) :
    (processList src js st).1 = st.1 ∪ idsOf js := by
  induction js generalizing st with
  | nil => simp [processList, idsOf]
  | cons j js ih =>
    have : processList src (j :: js) st = processList src js (addJob src st j) := rfl
    rw [this, ih]
    simp only [addJob, idsOf, List.map_cons, List.toFinset_cons]
    rw [Finset.insert_union, Finset.union_insert]

/-- Processing a list whose ids are all already seen leaves the batch
unchanged (no record is re-notified). -/
theorem processList_stable (src : String) (js : List Job) (st : RunState)
    (h : ∀ j ∈ js, j.id ∈ st.1) :
    processList src js st = (st.1 ∪ idsOf js, st.2) := by
  induction js generalizing st with
  | nil => simp [processList, idsOf]
  | cons j js ih =>
    have hstep : addJob src st j = (insert j.id st.1, st.2) := by
      simp only [addJob]
      rw [if_neg (not_not_intro (h j (List.mem_cons_self j js)))]
    have : processList src (j :: js) st = processList src js (addJob src st j) := rfl
    rw [this, hstep, ih]
    · simp only [idsOf, List.map_cons, List.toFinset_cons]
      rw [Finset.insert_union, Finset.union_insert]
    · intro j2 hj2
      exact Finset.mem_insert_of_mem (h j2 (List.mem_cons_of_mem j hj2))

/-- Ids marked seen by the intern-list branch. -/
def internIds (now : Int) (fetchRes : Option (List Job))
    (ilPw : List Job) : Finset String :=
  match fetchRes with
  | none => ∅
  | some parsed =>
    let inWin := parsed.filter (job_in_window now)
    idsOf inWin ∪ (if inWin.length = 0 then idsOf ilPw else ∅)

/-- Ids marked seen by the jobright branch. -/
def jobrightIds (jr : Option (List Job)) : Finset String :=
  match jr with
  | none => ∅
  | some js => idsOf js

/-- Ids marked seen by the airtable branch. -/
def airtableIds (atApi : Option (List Job)) (atPw : List Job) : Finset String :=
  match atApi with
  | some js => idsOf js
  | none => idsOf atPw

/-- All ids marked seen during one run. -/
def encounteredIds (now : Int) (internFetch : Option (List Job))
    (ilPw : List Job) (jrMini : Option (List (List Job)))
    (jrFb : Option (List Job)) (jrPw : List Job)
    (atApi : Option (List Job)) (atPw : List Job) : Finset String :=
  internIds now internFetch ilPw ∪
    jobrightIds (jobrightJobs jrMini jrFb jrPw) ∪ airtableIds atApi atPw

/-- Seen ids after the intern-list branch. -/
theorem internBranch_seen (now : Int) (f : Option (List Job))
    (ilPw : List Job) (st : RunState) :
    (internBranch now f ilPw st).1 = st.1 ∪ internIds now f ilPw := by
  cases f with
  | none => simp [internBranch, internIds]
  | some parsed =>
    simp only [internBranch, internIds]
    by_cases hw : (parsed.filter (job_in_window now)).length = 0
    · rw [if_pos hw, if_pos hw, processList_seen, processList_seen,
        Finset.union_assoc]
    · rw [if_neg hw, if_neg hw, processList_seen, Finset.union_empty]

/-- The intern-list branch adds nothing to the batch when its ids are
already seen. -/
theorem internBranch_stable (now : Int) (f : Option (List Job))
    (ilPw : List Job) (st : RunState)
    (h : internIds now f ilPw ⊆ st.1) :
    internBranch now f ilPw st = (st.1 ∪ internIds now f ilPw, st.2) := by
  cases f with
  | none => simp [internBranch, internIds]
  | some parsed =>
    simp only [internBranch, internIds] at h ⊢
    by_cases hw : (parsed.filter (job_in_window now)).length = 0
    · simp only [if_pos hw] at h ⊢
      have h1 : ∀ j ∈ parsed.filter (job_in_window now), j.id ∈ st.1 :=
        fun j hj => h (Finset.mem_union_left _ (mem_idsOf hj))
      have h2 : ∀ j ∈ ilPw, j.id ∈
          st.1 ∪ idsOf (parsed.filter (job_in_window now)) :=
        fun j hj => Finset.mem_union_left _
          (h (Finset.mem_union_right _ (mem_idsOf hj)))
      rw [processList_stable _ _ _ h1, processList_stable _ _ _ h2,
        Finset.union_assoc]
    · simp only [if_neg hw] at h ⊢
      rw [Finset.union_empty] at h ⊢
      exact processList_stable _ _ _ (fun j hj => h (mem_idsOf hj))

/-- Seen ids after the jobright branch. -/
theorem jobrightBranch_seen (jr : Option (List Job)) (st : RunState) :
    (jobrightBranch jr st).1 = st.1 ∪ jobrightIds jr := by
  cases jr with
  | none => simp [jobrightBranch, jobrightIds]
  | some js => simp [jobrightBranch, jobrightIds, processList_seen]

/-- The jobright branch adds nothing to the batch when its ids are seen. -/
theorem jobrightBranch_stable (jr : Option (List Job)) (st : RunState)
    (h : jobrightIds jr ⊆ st.1) :
    jobrightBranch jr st = (st.1 ∪ jobrightIds jr, st.2) := by
  cases jr with
  | none => simp [jobrightBranch, jobrightIds]
  | some js =>
    simp only [jobrightBranch, jobrightIds] at h ⊢
    exact processList_stable _ _ _ (fun j hj => h (mem_idsOf hj))

/-- Seen ids after the airtable branch. -/
theorem airtableBranch_seen (atApi : Option (List Job)) (atPw : List Job)
    (st : RunState) :
    (airtableBranch atApi atPw st).1 = st.1 ∪ airtableIds atApi atPw := by
  cases atApi with
  | none => simp [airtableBranch, airtableIds, processList_seen]
  | some js => simp [airtableBranch, airtableIds, processList_seen]

/-- The airtable branch adds nothing to the batch when its ids are seen. -/
theorem airtableBranch_stable (atApi : Option (List Job)) (atPw : List Job)
    (st : RunState) (h : airtableIds atApi atPw ⊆ st.1) :
    airtableBranch atApi atPw st = (st.1 ∪ airtableIds atApi atPw, st.2) := by
  cases atApi with
  | none =>
    simp only [airtableBranch, airtableIds] at h ⊢
    exact processList_stable _ _ _ (fun j hj => h (mem_idsOf hj))
  | some js =>
    simp only [airtableBranch, airtableIds] at h ⊢
    exact processList_stable _ _ _ (fun j hj => h (mem_idsOf hj))

/-- The seen set at run end is the loaded set plus every encountered id. -/
theorem runSources_seen (seen0 : Finset String) (now : Int)
    (internFetch : Option (List Job)) (ilPw : List Job)
    (jrMini : Option (List (List Job))) (jrFb : Option (List Job))
    (jrPw : List Job) (atApi : Option (List Job)) (atPw : List Job) :
    (runSources seen0 now internFetch ilPw jrMini jrFb jrPw atApi atPw).1 =
      seen0 ∪ encounteredIds now internFetch ilPw jrMini jrFb jrPw atApi atPw := by
  unfold runSources encounteredIds
  rw [airtableBranch_seen, jobrightBranch_seen, internBranch_seen]
  simp [Finset.union_assoc]

/-- Concrete capture tuple of an out-of-window intern-list posting. -/
def c1TupOld : String × String × String × String :=
  (("/da-intern-list/old-job"), ("Old Title"), ("January 1, 1970"), ("OldCo"))

/-- Concrete capture tuple of an in-window intern-list posting. -/
def c1TupNew : String × String × String × String :=
  (("/da-intern-list/new-job"), ("January 4, 1970 posting"), ("January 4, 1970"), ("NewCo"))

/-- Wall-clock instant of the concrete run: 1970-01-04, 01:00 UTC. -/
def c1Now : Int := 262800

/-- Statically parsed intern-list records of the concrete run. -/
def c1Parsed : List Job := parse_intern_list [c1TupOld, c1TupNew]

/-- Claim C1, counterexample: the normalizer produces the record with id
il_old-job, yet after the run the persisted seen set does not contain that
id, because main skips the mark-as-seen step for records that fail the
window check; the in-window record id il_new-job is persisted. -/
theorem c1_counterexample :
    (c1Parsed.map (fun j => j.id)).contains (("il_old-job")) = true ∧
    (("il_old-job")) ∉
      (runMain ∅ c1Now (some c1Parsed) [] (some [[], [], []]) (some [])
        [] (some []) []).1 ∧
    (("il_new-job")) ∈
      (runMain ∅ c1Now (some c1Parsed) [] (some [[], [], []]) (some [])
        [] (some []) []).1 := by
  decide

/-- Claim C1, amended: the persisted set is always the loaded set united
with every id actually processed this run: the window-passing statically
parsed intern-list records (plus the fallback rows when none was in the
window) and all jobright and airtable records; it is returned for saving
unconditionally, also when the novel batch is empty. -/
theorem c1_amended_seen_persist (seen0 : Finset String) (now : Int)
    (internFetch : Option (List Job)) (ilPw : List Job)
    (jrMini : Option (List (List Job))) (jrFb : Option (List Job))
    (jrPw : List Job) (atApi : Option (List Job)) (atPw : List Job) :
    (runMain seen0 now internFetch ilPw jrMini jrFb jrPw atApi atPw).1 =
      seen0 ∪ encounteredIds now internFetch ilPw jrMini jrFb jrPw atApi atPw :=
  runSources_seen seen0 now internFetch ilPw jrMini jrFb jrPw atApi atPw

/-- With the job ids fixed by the payloads (one process, one hash salt), a
second run over the persisted seen set notifies nothing: every processed id
was marked seen by the first run, so the second novel batch is empty. -/
theorem runMain_idempotent_fixed_ids (seen0 : Finset String) (now : Int)
    (internFetch : Option (List Job)) (ilPw : List Job)
    (jrMini : Option (List (List Job))) (jrFb : Option (List Job))
    (jrPw : List Job) (atApi : Option (List Job)) (atPw : List Job) :
    (runMain
      (runMain seen0 now internFetch ilPw jrMini jrFb jrPw atApi atPw).1
      now internFetch ilPw jrMini jrFb jrPw atApi atPw).2 = [] := by
  set s1 := (runMain seen0 now internFetch ilPw jrMini jrFb jrPw atApi atPw).1
    with hs1
  have h1 : s1 = seen0 ∪
      (internIds now internFetch ilPw ∪
        jobrightIds (jobrightJobs jrMini jrFb jrPw) ∪
        airtableIds atApi atPw) := by
    rw [hs1]
    exact runSources_seen seen0 now internFetch ilPw jrMini jrFb jrPw atApi atPw
  have hI : internIds now internFetch ilPw ⊆ s1 := by
    intro x hx
    rw [h1]
    exact Finset.mem_union_right _
      (Finset.mem_union_left _ (Finset.mem_union_left _ hx))
  have hJ : jobrightIds (jobrightJobs jrMini jrFb jrPw) ⊆
      s1 ∪ internIds now internFetch ilPw := by
    intro x hx
    rw [h1]
    exact Finset.mem_union_left _ (Finset.mem_union_right _
      (Finset.mem_union_left _ (Finset.mem_union_right _ hx)))
  have hA : airtableIds atApi atPw ⊆
      (s1 ∪ internIds now internFetch ilPw) ∪
        jobrightIds (jobrightJobs jrMini jrFb jrPw) := by
    intro x hx
    rw [h1]
    exact Finset.mem_union_left _ (Finset.mem_union_left _
      (Finset.mem_union_right _ (Finset.mem_union_right _ hx)))
  have e1 : internBranch now internFetch ilPw (s1, ([] : List Entry)) =
      (s1 ∪ internIds now internFetch ilPw, ([] : List Entry)) :=
    internBranch_stable now internFetch ilPw (s1, []) hI
  have e2 : jobrightBranch (jobrightJobs jrMini jrFb jrPw)
      (s1 ∪ internIds now internFetch ilPw, ([] : List Entry)) =
      ((s1 ∪ internIds now internFetch ilPw) ∪
        jobrightIds (jobrightJobs jrMini jrFb jrPw), ([] : List Entry)) :=
    jobrightBranch_stable _ _ hJ
  have e3 : airtableBranch atApi atPw
      ((s1 ∪ internIds now internFetch ilPw) ∪
        jobrightIds (jobrightJobs jrMini jrFb jrPw), ([] : List Entry)) =
      (((s1 ∪ internIds now internFetch ilPw) ∪
        jobrightIds (jobrightJobs jrMini jrFb jrPw)) ∪
        airtableIds atApi atPw, ([] : List Entry)) :=
    airtableBranch_stable _ _ _ hA
  have hrun : runSources s1 now internFetch ilPw jrMini jrFb jrPw atApi atPw =
      (((s1 ∪ internIds now internFetch ilPw) ∪
        jobrightIds (jobrightJobs jrMini jrFb jrPw)) ∪
        airtableIds atApi atPw, ([] : List Entry)) := by
    unfold runSources
    rw [e1, e2, e3]
  show digestSort
      (runSources s1 now internFetch ilPw jrMini jrFb jrPw atApi atPw).2 = []
  rw [hrun]
  rfl

/-- Inversion of a successful jrStep: the produced record comes from an
entry with an id and a posted time inside the window that passed both
guardrails, and its title and company are length-bounded. -/
theorem jrStep_eq_some (now_ms : Int) (raw : JrRaw) (j : Job)
    (h : jrStep now_ms raw = some j) :
    ∃ pm, raw.postedDate = some pm ∧ 0 ≤ now_ms - pm ∧
      now_ms - pm ≤ window_ms ∧
      meets_min_pay (orEmpty raw.salary) = true ∧
      is_usa_location (orEmpty raw.location) = true ∧
      j.title.data.length ≤ 200 ∧ j.company.data.length ≤ 100 := by
  simp only [jrStep] at h
  by_cases h0 : orEmpty raw.id = ""
  · rw [if_pos h0] at h
    exact absurd h (by simp)
  · rw [if_neg h0] at h
    cases hpd : raw.postedDate with
    | none =>
      rw [hpd] at h
      exact absurd h (by simp)
    | some pm =>
      rw [hpd] at h
      simp only [] at h
      refine ⟨pm, rfl, ?_⟩
      by_cases h2 : now_ms - pm < 0 ∨ window_ms < now_ms - pm
      · rw [if_pos h2] at h
        exact absurd h (by simp)
      · rw [if_neg h2] at h
        push_neg at h2
        refine ⟨h2.1, h2.2, ?_⟩
        by_cases h3 : (!meets_min_pay (orEmpty raw.salary)) = true
        · rw [if_pos h3] at h
          exact absurd h (by simp)
        · rw [if_neg h3] at h
          by_cases h4 : (!is_usa_location (orEmpty raw.location)) = true
          · rw [if_pos h4] at h
            exact absurd h (by simp)
          · rw [if_neg h4] at h
            refine ⟨by simpa using h3, by simpa using h4, ?_⟩
            have hj := (Option.some.inj h).symm
            subst hj
            constructor
            · by_cases ht : (⟨(orEmpty raw.title).data.take 200⟩ : String) = ("")
              · simp only [if_pos ht]
                decide
              · simp only [if_neg ht]
                simp
            · simp

/-- Batch provenance of one source loop: every batch entry was already
there or is a processed job tagged with this source. -/
theorem processList_batch_mem (src : String) (js : List Job) (st : RunState)
    (e : Entry) (he : e ∈ (processList src js st).2) :
    e ∈ st.2 ∨ (e.2 = src ∧ e.1 ∈ js) := by
  induction js generalizing st with
  | nil => exact Or.inl he
  | cons j js ih =>
    have hstep : processList src (j :: js) st =
        processList src js (addJob src st j) := rfl
    rw [hstep] at he
    rcases ih (addJob src st j) he with h1 | h2
    · simp only [addJob] at h1
      by_cases hnew : j.id ∉ st.1
      · rw [if_pos hnew] at h1
        rcases List.mem_append.mp h1 with h3 | h3
        · exact Or.inl h3
        · rcases List.mem_singleton.mp h3 with rfl
          exact Or.inr ⟨rfl, List.mem_cons_self j js⟩
      · rw [if_neg hnew] at h1
        exact Or.inl h1
    · exact Or.inr ⟨h2.1, List.mem_cons_of_mem j h2.2⟩

/-- Batch provenance of the intern-list branch: a new entry carries the
intern-list tag and is either a window-passing parsed record or a fallback
row. -/
theorem internBranch_batch_mem (now : Int) (f : Option (List Job))
    (ilPw : List Job) (st : RunState) (e : Entry)
    (he : e ∈ (internBranch now f ilPw st).2) :
    e ∈ st.2 ∨ (e.2 = ("intern-list") ∧
      (e.1 ∈ ilPw ∨ job_in_window now e.1 = true)) := by
  cases f with
  | none => exact Or.inl he
  | some parsed =>
    simp only [internBranch] at he
    by_cases hw : (parsed.filter (job_in_window now)).length = 0
    · rw [if_pos hw] at he
      rcases processList_batch_mem _ _ _ _ he with h1 | h2
      · rcases processList_batch_mem _ _ _ _ h1 with h3 | h4
        · exact Or.inl h3
        · exact Or.inr ⟨h4.1, Or.inr (List.of_mem_filter h4.2)⟩
      · exact Or.inr ⟨h2.1, Or.inl h2.2⟩
    · rw [if_neg hw] at he
      rcases processList_batch_mem _ _ _ _ he with h1 | h2
      · exact Or.inl h1
      · exact Or.inr ⟨h2.1, Or.inr (List.of_mem_filter h2.2)⟩

/-- Batch provenance of the jobright branch. -/
theorem jobrightBranch_batch_mem (jr : Option (List Job)) (st : RunState)
    (e : Entry) (he : e ∈ (jobrightBranch jr st).2) :
    e ∈ st.2 ∨ e.2 = ("jobright") := by
  cases jr with
  | none => exact Or.inl he
  | some js =>
    rcases processList_batch_mem _ _ _ _ he with h1 | h2
    · exact Or.inl h1
    · exact Or.inr h2.1

/-- Batch provenance of the airtable branch. -/
theorem airtableBranch_batch_mem (atApi : Option (List Job))
    (atPw : List Job) (st : RunState) (e : Entry)
    (he : e ∈ (airtableBranch atApi atPw st).2) :
    e ∈ st.2 ∨ e.2 = ("airtable") := by
  cases atApi with
  | none =>
    rcases processList_batch_mem _ _ _ _ he with h1 | h2
    · exact Or.inl h1
    · exact Or.inr h2.1
  | some js =>
    rcases processList_batch_mem _ _ _ _ he with h1 | h2
    · exact Or.inl h1
    · exact Or.inr h2.1

/-- Claim C4, counterexample: the static-markup normalizer emits the record
for the concrete January 1, 1970 posting although it is out of the recency
window at extraction time, so not every normalizer filters by window. -/
theorem c4_counterexample :
    (parse_intern_list [c1TupOld]).all (fun j => job_in_window c1Now j) =
      false := by
  decide

/-- Claim C4, amended: the embedded-JSON normalizer only emits records of
entries inside the window that pass both guardrails, and a record of the
static-markup normalizer only reaches the digest batch after the
orchestrator window check (or from the pre-filtered fallback rows). -/
theorem c4_amended_guardrails :
    (∀ (now_ms : Int) (l : List JrRaw) (j : Job),
      j ∈ parse_jobright_jobs now_ms l →
      ∃ raw ∈ l, ∃ pm, raw.postedDate = some pm ∧ 0 ≤ now_ms - pm ∧
        now_ms - pm ≤ window_ms ∧
        meets_min_pay (orEmpty raw.salary) = true ∧
        is_usa_location (orEmpty raw.location) = true) ∧
    (∀ (seen0 : Finset String) (now : Int) (internFetch : Option (List Job))
      (ilPw : List Job) (jrMini : Option (List (List Job)))
      (jrFb : Option (List Job)) (jrPw : List Job)
      (atApi : Option (List Job)) (atPw : List Job) (e : Entry),
      e ∈ (runMain seen0 now internFetch ilPw jrMini jrFb jrPw atApi atPw).2 →
      e.2 = ("intern-list") →
      e.1 ∈ ilPw ∨ job_in_window now e.1 = true) := by
  constructor
  · intro now_ms l j hj
    rcases List.mem_filterMap.mp hj with ⟨raw, hraw, hstep⟩
    rcases jrStep_eq_some now_ms raw j hstep with ⟨pm, h1, h2, h3, h4, h5, _⟩
    exact ⟨raw, hraw, pm, h1, h2, h3, h4, h5⟩
  · intro seen0 now iF ilPw jrM jrFb jrPw aA aP e he hsrc
    have he2 : e ∈ (runSources seen0 now iF ilPw jrM jrFb jrPw aA aP).2 :=
      (digestSort_perm _).mem_iff.mp he
    rcases airtableBranch_batch_mem _ _ _ _ he2 with h1 | h2
    · rcases jobrightBranch_batch_mem _ _ _ h1 with h3 | h4
      · rcases internBranch_batch_mem _ _ _ _ _ h3 with h5 | h6
        · exact absurd h5 (List.not_mem_nil e)
        · exact h6.2
      · exact absurd (hsrc.symm.trans h4) (by decide)
    · exact absurd (hsrc.symm.trans h2) (by decide)

/-- Concrete raw Jobright entry passing every filter. -/
def jrRaw0 : JrRaw :=
  { id := some ("abc"), postedDate := some 0, salary := some ("$30/hr"),
    location := some ("Remote"), title := some ("T"), company := some ("C"),
    applyUrl := some ("https://x.com/a?b") }

/-- The record the JSON normalizer produces from jrRaw0 at instant 0. -/
def jrJob0 : Job :=
  { id := ("jr_abc"), title := ("T"), company := ("C"),
    url := ("https://x.com/a"), posted := none,
    posted_str := ("0 mins ago"), posted_ms := some 0 }

/-- The in-window record of the concrete intern-list run. -/
def c1JobNew : Job :=
  { id := ("il_new-job"), title := ("January 4, 1970 posting"),
    company := ("NewCo"),
    url := ("https://www.intern-list.com/da-intern-list/new-job"),
    posted := some 259200, posted_str := ("January 4, 1970") }

/-- Witness for claim C4 at the concrete Jobright entry and the concrete
intern-list run. -/
theorem c4_witness :
    (jrJob0 ∈ parse_jobright_jobs 0 [jrRaw0] ∧
      (∃ raw ∈ [jrRaw0], ∃ pm, raw.postedDate = some pm ∧
        0 ≤ (0 : Int) - pm ∧ (0 : Int) - pm ≤ window_ms ∧
        meets_min_pay (orEmpty raw.salary) = true ∧
        is_usa_location (orEmpty raw.location) = true)) ∧
    ((c1JobNew, (("intern-list") : String)) ∈
        (runMain ∅ c1Now (some c1Parsed) [] (some [[], [], []]) (some [])
          [] (some []) []).2 ∧
      (c1JobNew ∈ ([] : List Job) ∨ job_in_window c1Now c1JobNew = true)) :=
  ⟨⟨by decide, c4_amended_guardrails.1 0 [jrRaw0] jrJob0 (by decide)⟩,
   ⟨by decide,
    c4_amended_guardrails.2 ∅ c1Now (some c1Parsed) [] (some [[], [], []])
      (some []) [] (some []) [] (c1JobNew, ("intern-list")) (by decide) rfl⟩⟩

/-- A 201-character title as captured from the page markup. -/
def longTitle201 : String := ⟨List.replicate 201 'a'⟩

set_option maxRecDepth 8192 in
/-- Claim C9, counterexample: the static-markup normalizer copies the
captured title without truncation, so a 201-character source title yields a
201-character record title, above the claimed 200 bound. -/
theorem c9_counterexample :
    ((parse_intern_list
        [(("/da-intern-list/x"), longTitle201, ("January 1, 1970"), ("c"))]).map
      (fun j => j.title.data.length)) = [201] ∧ 200 < 201 := by
  constructor
  · decide
  · decide

/-- Claim C9, amended: the records of the embedded-JSON normalizer are
truncated to a title of at most 200 and a company of at most 100
characters; the static-markup normalizer only strips whitespace and keeps
source lengths. -/
theorem c9_amended_truncation :
    ∀ (now_ms : Int) (l : List JrRaw) (j : Job),
      j ∈ parse_jobright_jobs now_ms l →
      j.title.data.length ≤ 200 ∧ j.company.data.length ≤ 100 := by
  intro now_ms l j hj
  rcases List.mem_filterMap.mp hj with ⟨raw, hraw, hstep⟩
  rcases jrStep_eq_some now_ms raw j hstep with ⟨pm, _, _, _, _, _, ht, hc⟩
  exact ⟨ht, hc⟩

/-- Witness for claim C9 at the concrete Jobright entry. -/
theorem c9_witness :
    jrJob0 ∈ parse_jobright_jobs 0 [jrRaw0] ∧
    jrJob0.title.data.length ≤ 200 ∧ jrJob0.company.data.length ≤ 100 :=
  ⟨by decide, c9_amended_truncation 0 [jrRaw0] jrJob0 (by decide)⟩

/-- Attempt sequence whose first two fetches fail and third succeeds. -/
def c8Attempts : Nat → Except String String :=
  fun a => if a ≤ 1 then .error ("boom") else .ok ("page")

/-- Claim C8, counterexample: with the default budget retries = 2 the
wrapper still succeeds after the first retry also failed, so the fetch is
retried twice, not at most once as the claim states. -/
theorem c8_counterexample :
    c8Attempts 0 = .error ("boom") ∧
    c8Attempts 1 = .error ("boom") ∧
    fetchRetryOnceSpec c8Attempts = .error ("boom") ∧
    fetch_with_retry c8Attempts = .ok ("page") := by
  refine ⟨rfl, rfl, rfl, rfl⟩

/-- Claim C8, amended: the wrapper makes up to three attempts (two
retries), returning the first success or the last error; a jobright source
failure is non-fatal: the remaining sources still execute unchanged. -/
theorem c8_amended_retry :
    (∀ attempts, fetch_with_retry attempts = fetchRetryTwiceSpec attempts) ∧
    (∀ (seen0 : Finset String) (now : Int) (internFetch : Option (List Job))
      (ilPw : List Job) (jrFb : Option (List Job)) (jrPw : List Job)
      (atApi : Option (List Job)) (atPw : List Job),
      runSources seen0 now internFetch ilPw none jrFb jrPw atApi atPw =
        airtableBranch atApi atPw
          (internBranch now internFetch ilPw (seen0, []))) := by
  constructor
  · intro attempts
    unfold fetch_with_retry fetchRetryTwiceSpec
    cases h0 : attempts 0 with
    | ok v => simp [fetchRetryAux, h0]
    | error e0 =>
      cases h1 : attempts 1 with
      | ok v => simp [fetchRetryAux, h0, h1]
      | error e1 => simp [fetchRetryAux, h0, h1]
  · intro seen0 now internFetch ilPw jrFb jrPw atApi atPw
    rfl

/-!
Claim C2 concerns two successive process invocations.  The airtable and
fallback ids are derived from the Python builtin hash (alert.py lines 254,
305 and 523), which is salted per process and is not fixed by the source;
the embedding therefore takes the hash function of an invocation as a
parameter of the row-to-record construction.
-/

/-- Row-to-record construction of scrape_airtable_playwright (alert.py
lines 253-257) for one scraped row, given the hash function of the current
process invocation; title and company are the already truncated cell
values, the url is the embed page and the date string the matched recency
text. -/
def airtableRowJob (pyHash : String × String × String → Int)
    (title company date_str : String) : Job :=
  { id := ("at_") ++ toString ((pyHash (title, company, date_str)).natAbs % 10 ^ 10),
    title := title, company := company,
    url := ("https://airtable.com/embed/app742LMLO7tQP9dO/shrxLJiBa4dfQZwx8?viewControls=on"),
    posted := none, posted_str := date_str }

/-- Hash function of the first process invocation: Python salts the string
hash per process, so each invocation determines one such function; the two
concrete functions below stand for two different salts. -/
def pyHashRun1 : String × String × String → Int := fun _ => 1

/-- Hash function of the second process invocation, with a different salt. -/
def pyHashRun2 : String × String × String → Int := fun _ => 2

/-- The fixed scraped airtable row as recorded by the first invocation. -/
def atJobRun1 : Job := airtableRowJob pyHashRun1 ("Data Intern") ("Acme") ("1 hour ago")

/-- The same scraped airtable row as recorded by the second invocation. -/
def atJobRun2 : Job := airtableRowJob pyHashRun2 ("Data Intern") ("Acme") ("1 hour ago")

/-- Claim C2: evaluation at the failing input.  The same airtable row,
fetched unchanged by two successive process invocations with the seen set
persisted between them, is derived to two different ids because the hash is
salted per process; the second run therefore misses the persisted set and
re-notifies the row: its novel batch is non-empty, against the claimed
idempotence. -/
theorem c2_hash_renotify :
    atJobRun1.id ≠ atJobRun2.id ∧
    (runMain ((runMain ∅ 0 none [] none none [] none [atJobRun1]).1)
        0 none [] none none [] none [atJobRun2]).2 =
      [(atJobRun2, ("airtable"))] := by
  decide
